import Mathlib

/-!
# Verification of httomolibgpu: sinogram stitching and reconstruction wrappers

Shallow embedding of `src/httomolibgpu/misc/morph.py` (the function
`sino_360_to_180`) and of the argument-translation logic of the three
reconstruction entry points in `src/httomolibgpu/recon/algorithm.py`
(`FBP`, `SIRT`, `CGLS`).

Modelling decisions:
* Array elements are modelled as exact rationals (`ℚ`); the index algebra of
  the stitcher is exact, so rational arithmetic reproduces it faithfully.
* A CuPy `ndarray` is modelled as `NdArr`: a shape (list of dimensions), a
  dtype tag, and a total valuation function on index lists.  Only indices
  inside the shape are meaningful.
* The stitcher runs against an explicit heap of arrays (`Heap`), so that
  allocation of the output buffer (`cp.empty`), the three slice-assignment
  statements of each rotation branch, and the absence of writes to the input
  array are all visible in the semantics.  `sinoRun` additionally returns the
  ordered list of allocation/write events that executed, which lets us settle
  the claims about error/allocation ordering.
* `np.round` is banker's rounding (round half to even) and `cp.linspace`
  with `num` samples follows numpy semantics (`num = 1` gives `[start]`,
  `num ≥ 2` gives `start + i*(stop-start)/(num-1)`); both are embedded below.
* NumPy/CuPy slice-assignment broadcasting of the last axis succeeds exactly
  when the source width equals the destination width or the source width is
  one; the one place in `sino_360_to_180` where this can fail (the
  `data[:n, :, :-overlap]` slices of the "right" branch, which are empty when
  `overlap == 0`) is guarded by the corresponding check in `sinoRun`.
-/

/-- Model of a CuPy `ndarray`: shape, dtype tag and element valuation.
`val` is total on index lists; only indices within `shape` are meaningful. -/
structure NdArr where
  shape : List ℕ
  dtype : String
  val : List ℕ → ℚ

/-- Placeholder array used for out-of-domain heap reads (never hit by the
claims: every read in the development is at a valid reference). -/
def defaultArr : NdArr := ⟨[], "", fun _ => 0⟩

/-- A heap of arrays; references are positions in the list. -/
structure Heap where
  cells : List NdArr

/-- Replace the element at position `r` of a list by its image under `f`
(identity when `r` is out of range). -/
def modifyAt {α : Type} : List α → ℕ → (α → α) → List α
  | [], _, _ => []
  | a :: t, 0, f => f a :: t
  | a :: t, Nat.succ n, f => a :: modifyAt t n f

/-- Read the array at reference `r`. -/
def Heap.read (h : Heap) (r : ℕ) : Option NdArr := h.cells.get? r

/-- Allocate a new array, returning the new heap and the fresh reference. -/
def Heap.alloc (h : Heap) (a : NdArr) : Heap × ℕ :=
  (⟨h.cells ++ [a]⟩, h.cells.length)

/-- Overwrite (in place) the array at reference `r` by its image under `f`. -/
def Heap.write (h : Heap) (r : ℕ) (f : NdArr → NdArr) : Heap :=
  ⟨modifyAt h.cells r f⟩

/-- The errors `sino_360_to_180` can raise (all `ValueError` in the source;
the two overlap ones are the spec's `RangeError` class), plus the broadcast
error CuPy itself raises when a slice assignment's shapes are incompatible. -/
inductive SinoError where
  | dimError
  | overlapTooLarge
  | overlapNegative
  | rotationError
  | broadcastError
  deriving DecidableEq

/-- Observable heap events of one call: allocation of the output buffer
(`cp.empty`) and the numbered slice-assignment statements of the taken
branch. -/
inductive Event where
  | alloc
  | write (line : ℕ)
  deriving DecidableEq

/-- Embedding of `int(np.round(q))`: banker's rounding, half to even. -/
def npRound (q : ℚ) : ℤ :=
  if q - ⌊q⌋ < 1/2 then ⌊q⌋
  else if 1/2 < q - ⌊q⌋ then ⌊q⌋ + 1
  else if ⌊q⌋ % 2 = 0 then ⌊q⌋ else ⌊q⌋ + 1

/-- Embedding of `cp.linspace(a, b, num)`, sample `i` (numpy semantics: `num = 1` gives the
start value; for `num ≥ 2`, `a + i*(b-a)/(num-1)`).  For `num = 0` the array
is empty and is never indexed by the code, so the value is irrelevant. -/
def linspace (a b : ℚ) (num : ℕ) (i : ℕ) : ℚ :=
  if num ≤ 1 then a else a + (b - a) * i / ((num : ℚ) - 1)

/-- Embedding of `cp.empty(shape, dtype)`: uninitialised memory, modelled as zeros.  The
code fully overwrites every in-domain element before returning, so the
initial values are never observable through the claims. -/
def cpEmpty (shape : List ℕ) (dtype : String) : NdArr :=
  ⟨shape, dtype, fun _ => 0⟩

/-- Slice assignment `a[:, :, lo : lo + width] = src` (source indexed by its
position `j - lo` within the band).  Rows and sinogram slices are written for
all indices, matching the full `[:, :, ...]` slices in the source. -/
def setBand (lo width : ℕ) (src : ℕ → ℕ → ℕ → ℚ) (a : NdArr) : NdArr :=
  { a with val := fun idx =>
      match idx with
      | [i, y, j] =>
        if lo ≤ j ∧ j < lo + width then src i y (j - lo) else a.val [i, y, j]
      | _ => a.val idx }

/-- The body of `sino_360_to_180` (morph.py lines 74-107) run against a heap:
validation, allocation of the output, and the three slice assignments of the
chosen branch, in statement order.  Returns the final heap, the event list,
and either the error raised or the reference of the output array.

Statement-by-statement correspondence with the source:
* `data.ndim != 3` check → `dimError`;
* `overlap = int(np.round(overlap))`, then the `overlap >= dz` and
  `overlap < 0` checks → `overlapTooLarge` / `overlapNegative`;
* `out = cp.empty((n, dy, 2*dz - overlap), dtype=data.dtype)` → `alloc`;
* "left": writes 1-3 are the three assignments of lines 90-95, with the
  negative column index `-dz + overlap` resolved to `dz` within the output
  width `2*dz - overlap`, and `[:, :, ::-1]` resolved to the explicit
  reversed column arithmetic;
* "right": the sources `data[:n, :, :-overlap]` have width `dz - overlap`
  when `overlap > 0` but are empty when `overlap == 0` (Python's `:-0` is
  `:0`), so the first assignment broadcasts only when that width matches the
  destination band (or is 1) — otherwise CuPy raises, modelled as
  `broadcastError`;
* any other `rotation` string → `rotationError`, raised after the allocation
  (the check is the trailing `else` of the branch on `rotation`). -/
def sinoRun (h : Heap) (dataRef : ℕ) (overlap : ℚ) (rotation : String) :
    Heap × List Event × Except SinoError ℕ :=
  let data := (h.read dataRef).getD defaultArr
  if data.shape.length ≠ 3 then (h, [], Except.error SinoError.dimError)
  else
    let dx := data.shape.getD 0 0
    let dy := data.shape.getD 1 0
    let dz := data.shape.getD 2 0
    let ov := npRound overlap
    if ov ≥ (dz : ℤ) then (h, [], Except.error SinoError.overlapTooLarge)
    else if ov < 0 then (h, [], Except.error SinoError.overlapNegative)
    else
      let o := ov.toNat
      let n := dx / 2
      let alloc1 := h.alloc (cpEmpty [n, dy, 2 * dz - o] data.dtype)
      let h1 := alloc1.1
      let outRef := alloc1.2
      if rotation = "left" then
        let w := linspace 0 1 o
        let h2 := h1.write outRef
          (setBand dz (dz - o) (fun i y p => data.val [i, y, o + p]))
        let h3 := h2.write outRef
          (setBand 0 (dz - o) (fun i y p => data.val [n + i, y, dz - 1 - p]))
        let h4 := h3.write outRef
          (setBand (dz - o) o (fun i y k =>
            w k * data.val [i, y, k] + w (o - 1 - k) * data.val [n + i, y, o - 1 - k]))
        (h4, [Event.alloc, Event.write 1, Event.write 2, Event.write 3],
          Except.ok outRef)
      else if rotation = "right" then
        let w := linspace 1 0 o
        let srcW := if o = 0 then 0 else dz - o
        if srcW = dz - o ∨ srcW = 1 then
          let h2 := h1.write outRef
            (setBand 0 (dz - o) (fun i y p => data.val [i, y, p]))
          let h3 := h2.write outRef
            (setBand dz (dz - o) (fun i y p => data.val [n + i, y, dz - o - 1 - p]))
          let h4 := h3.write outRef
            (setBand (dz - o) o (fun i y k =>
              w k * data.val [i, y, dz - o + k]
              + w (o - 1 - k) * data.val [n + i, y, dz - 1 - k]))
          (h4, [Event.alloc, Event.write 1, Event.write 2, Event.write 3],
            Except.ok outRef)
        else (h1, [Event.alloc], Except.error SinoError.broadcastError)
      else (h1, [Event.alloc], Except.error SinoError.rotationError)

/-- Embedding of `sino_360_to_180(data, overlap, rotation)`: run the body on a fresh heap
holding only `data` and extract the output array (or the raised error). -/
def sino_360_to_180 (data : NdArr) (overlap : ℚ) (rotation : String) :
    Except SinoError NdArr :=
  let r := sinoRun (Heap.mk [data]) 0 overlap rotation
  Except.map (fun ref => (r.1.read ref).getD defaultArr) r.2.2

/-- The event trace of one call of `sino_360_to_180`. -/
def sinoEvents (data : NdArr) (overlap : ℚ) (rotation : String) : List Event :=
  (sinoRun (Heap.mk [data]) 0 overlap rotation).2.1

/-- Extract the output array of a successful call (placeholder on error). -/
def getOut : Except SinoError NdArr → NdArr
  | Except.ok a => a
  | Except.error _ => defaultArr

/-- The error raised by a call, if any. -/
def errOf : Except SinoError NdArr → Option SinoError
  | Except.ok _ => none
  | Except.error e => some e

/-- Whether a call returned an output. -/
def isOk : Except SinoError NdArr → Bool
  | Except.ok _ => true
  | Except.error _ => false

/-- Whether a call failed with one of the two overlap range errors (the
spec's `RangeError` class). -/
def isRangeErr : Except SinoError NdArr → Bool
  | Except.error SinoError.overlapTooLarge => true
  | Except.error SinoError.overlapNegative => true
  | _ => false

/-- Fixture for the golden scenario: shape `(4, 1, 6)`, values `0..23` filled
sequentially, i.e. `data[i, 0, k] = 6*i + k`. -/
def fix416 : NdArr :=
  ⟨[4, 1, 6], "float32", fun idx =>
    match idx with
    | [i, _, k] => ((6 * i + k : ℕ) : ℚ)
    | _ => 0⟩

/-- Small fixture of shape `(2, 1, 2)` with values `0..3`. -/
def fix212 : NdArr :=
  ⟨[2, 1, 2], "float32", fun idx =>
    match idx with
    | [i, _, k] => ((2 * i + k : ℕ) : ℚ)
    | _ => 0⟩

/-- Small fixture of shape `(2, 1, 1)` with values `0..1`. -/
def fix211 : NdArr :=
  ⟨[2, 1, 1], "uint16", fun idx =>
    match idx with
    | [i, _, _] => ((i : ℕ) : ℚ)
    | _ => 0⟩

/-- Small fixture of shape `(2, 1, 3)` with values `0..5`. -/
def fix213 : NdArr :=
  ⟨[2, 1, 3], "float32", fun idx =>
    match idx with
    | [i, _, k] => ((3 * i + k : ℕ) : ℚ)
    | _ => 0⟩

/-- Small fixture of shape `(4, 2, 2)` with values `0..15`. -/
def fix422 : NdArr :=
  ⟨[4, 2, 2], "float64", fun idx =>
    match idx with
    | [i, y, k] => ((4 * i + 2 * y + k : ℕ) : ℚ)
    | _ => 0⟩

/-- Row `i` of (the single detector-row `y = 0` of) an array, as a list of
its first `width` column values — used to evaluate concrete outputs. -/
def outRow (a : NdArr) (i : ℕ) (width : ℕ) : List ℚ :=
  (List.range width).map (fun j => a.val [i, 0, j])

/-- The uninitialised output buffer `cp.empty((P//2, R, 2*C - o), data.dtype)`. -/
def emptyOut (data : NdArr) (P R C o : ℕ) : NdArr :=
  cpEmpty [P / 2, R, 2 * C - o] data.dtype

/-- The output array produced by the "left" branch: the three slice
assignments of morph.py lines 90-95 applied in order to the empty buffer. -/
def leftOut (data : NdArr) (P R C o : ℕ) : NdArr :=
  setBand (C - o) o (fun i y k =>
      linspace 0 1 o k * data.val [i, y, k]
      + linspace 0 1 o (o - 1 - k) * data.val [P / 2 + i, y, o - 1 - k])
    (setBand 0 (C - o) (fun i y p => data.val [P / 2 + i, y, C - 1 - p])
      (setBand C (C - o) (fun i y p => data.val [i, y, o + p])
        (emptyOut data P R C o)))

/-- The output array produced by the "right" branch (`o ≥ 1`): the three
slice assignments of morph.py lines 98-103 applied in order. -/
def rightOut (data : NdArr) (P R C o : ℕ) : NdArr :=
  setBand (C - o) o (fun i y k =>
      linspace 1 0 o k * data.val [i, y, C - o + k]
      + linspace 1 0 o (o - 1 - k) * data.val [P / 2 + i, y, C - 1 - k])
    (setBand C (C - o) (fun i y p => data.val [P / 2 + i, y, C - o - 1 - p])
      (setBand 0 (C - o) (fun i y p => data.val [i, y, p])
        (emptyOut data P R C o)))

/-- Fixture with an odd projection count: shape `(5, 1, 2)`, values
`data[i, 0, k] = 2*i + k`. -/
def fixOdd : NdArr :=
  ⟨[5, 1, 2], "float32", fun idx =>
    match idx with
    | [i, _, k] => ((2 * i + k : ℕ) : ℚ)
    | _ => 0⟩

/-- Same as `fixOdd` except the last projection row (index 4) holds the
sentinel value 99. -/
def fixOddS : NdArr :=
  ⟨[5, 1, 2], "float32", fun idx =>
    match idx with
    | [i, _, k] => if i = 4 then 99 else ((2 * i + k : ℕ) : ℚ)
    | _ => 0⟩

/-- The arguments `FBP`/`SIRT`/`CGLS` pass to the external toolkit's
`RecToolsDIRCuPy`/`RecToolsIRCuPy` constructor (algorithm.py lines 106-112,
192-198, 278-284).  The reconstruction itself is an opaque external call and
is out of scope; the functions' own logic is exactly this translation. -/
structure RecToolsArgs where
  DetectorsDimH : ℕ
  DetectorsDimV : ℕ
  CenterRotOffset : ℚ
  AnglesVec : List ℚ
  ObjSize : ℕ
  device_projector : ℕ
  deriving DecidableEq

/-- The `_algorithm_` dictionary passed by `SIRT`/`CGLS` to the iterative
solvers. -/
structure AlgoParams where
  iterations : ℕ
  nonnegativity : Bool
  deriving DecidableEq

/-- Embedding of `FBP(data, angles, center, objsize, gpu_id)`: the `center`/`objsize`
defaulting and the constructor arguments of `RecToolsDIRCuPy` (algorithm.py
lines 101-112).  `s0, s1, s2` are `data.shape`. -/
def FBP (s0 s1 s2 : ℕ) (angles : List ℚ) (center : Option ℚ)
    (objsize : Option ℕ) (gpu_id : ℕ) : RecToolsArgs :=
  let c := center.getD ((s2 / 2 : ℕ) : ℚ)
  let os := objsize.getD s2
  { DetectorsDimH := s2
  , DetectorsDimV := s1
  , CenterRotOffset := (s2 : ℚ) / 2 - c - 1/2
  , AnglesVec := angles.map (fun a => -a)
  , ObjSize := os
  , device_projector := gpu_id }

/-- Embedding of `SIRT` — `center`/`objsize` defaulting
(algorithm.py lines 187-203): constructor arguments of `RecToolsIRCuPy`
plus the algorithm dictionary. -/
def SIRT (s0 s1 s2 : ℕ) (angles : List ℚ) (center : Option ℚ)
    (objsize : Option ℕ) (iterations : ℕ) (nonnegativity : Bool)
    (gpu_id : ℕ) : RecToolsArgs × AlgoParams :=
  let c := center.getD ((s2 / 2 : ℕ) : ℚ)
  let os := objsize.getD s2
  ({ DetectorsDimH := s2
   , DetectorsDimV := s1
   , CenterRotOffset := (s2 : ℚ) / 2 - c - 1/2
   , AnglesVec := angles.map (fun a => -a)
   , ObjSize := os
   , device_projector := gpu_id },
   { iterations := iterations, nonnegativity := nonnegativity })

/-- Embedding of `CGLS` — `center`/`objsize` defaulting
(algorithm.py lines 273-289): constructor arguments of `RecToolsIRCuPy`
plus the algorithm dictionary. -/
def CGLS (s0 s1 s2 : ℕ) (angles : List ℚ) (center : Option ℚ)
    (objsize : Option ℕ) (iterations : ℕ) (nonnegativity : Bool)
    (gpu_id : ℕ) : RecToolsArgs × AlgoParams :=
  let c := center.getD ((s2 / 2 : ℕ) : ℚ)
  let os := objsize.getD s2
  ({ DetectorsDimH := s2
   , DetectorsDimV := s1
   , CenterRotOffset := (s2 : ℚ) / 2 - c - 1/2
   , AnglesVec := angles.map (fun a => -a)
   , ObjSize := os
   , device_projector := gpu_id },
   { iterations := iterations, nonnegativity := nonnegativity })

/-- An integer passed through `np.round` is unchanged. -/
theorem npRound_natCast (o : ℕ) : npRound (o : ℚ) = o := by
  have h : ⌊(o : ℚ)⌋ = (o : ℤ) := Int.floor_natCast o
  rw [npRound, h]
  norm_num

/-- Reading any position other than the modified one is unaffected. -/
theorem modifyAt_get_ne {α : Type} (l : List α) (s r : ℕ) (f : α → α)
    (hne : r ≠ s) : (modifyAt l s f).get? r = l.get? r := by
  induction l generalizing s r with
  | nil => simp [modifyAt]
  | cons a t ih =>
    cases s with
    | zero =>
      cases r with
      | zero => exact absurd rfl hne
      | succ r => simp [modifyAt]
    | succ s =>
      cases r with
      | zero => simp [modifyAt]
      | succ r =>
        simp only [modifyAt, List.get?_cons_succ]
        exact ih s r (by omega)

/-- Writing one heap cell leaves every other cell unchanged. -/
theorem Heap.read_write_ne (h : Heap) (s : ℕ) (f : NdArr → NdArr) (r : ℕ)
    (hne : r ≠ s) : (h.write s f).read r = h.read r :=
  modifyAt_get_ne h.cells s r f hne

/-- Allocation does not change the existing cells. -/
theorem Heap.read_alloc_lt (h : Heap) (a : NdArr) (r : ℕ)
    (hr : r < h.cells.length) : (h.alloc a).1.read r = h.read r := by
  simp only [Heap.alloc, Heap.read, List.get?_eq_getElem?]
  exact List.getElem?_append_left hr

/-- Allocating a buffer and then writing to it three times leaves every
pre-existing cell untouched. -/
theorem Heap.read_alloc_write3 (h : Heap) (a : NdArr)
    (f1 f2 f3 : NdArr → NdArr) (rr : ℕ) (hr : rr < h.cells.length) :
    ((((h.alloc a).1.write (h.alloc a).2 f1).write (h.alloc a).2 f2).write
        (h.alloc a).2 f3).read rr = h.read rr := by
  have hne : rr ≠ (h.alloc a).2 := by
    simp only [Heap.alloc]
    omega
  rw [Heap.read_write_ne _ _ _ _ hne, Heap.read_write_ne _ _ _ _ hne,
    Heap.read_write_ne _ _ _ _ hne, Heap.read_alloc_lt _ _ _ hr]

/-- Characterisation of the "left" branch: for a 3-D input and an in-range
integer overlap, the call succeeds and returns exactly the three-band
composition `leftOut`. -/
theorem sino_left_eq (data : NdArr) (P R C o : ℕ)
    (hsh : data.shape = [P, R, C]) (ho : o < C) :
    sino_360_to_180 data (o : ℚ) "left" = Except.ok (leftOut data P R C o) := by
  have h1 : ((npRound (o : ℚ) ≥ (C : ℤ))) = False := by
    rw [npRound_natCast]
    simp only [eq_iff_iff, iff_false, ge_iff_le, not_le]
    exact_mod_cast ho
  have h2 : ((npRound (o : ℚ) < 0)) = False := by
    rw [npRound_natCast]
    simp only [eq_iff_iff, iff_false, not_lt]
    exact_mod_cast Nat.zero_le o
  simp only [sino_360_to_180, sinoRun, Heap.read, List.get?, Option.getD_some,
    hsh, List.length_cons, List.length_nil, h1, h2, if_false, ne_eq,
    npRound_natCast, Int.toNat_natCast, List.getD, Heap.alloc, Heap.write,
    modifyAt, Except.map, leftOut, emptyOut]
  have hA : ¬ (C ≤ o) := by omega
  have hB : ¬ ((o : ℤ) < 0) := not_lt.mpr (Int.natCast_nonneg o)
  norm_num [hA, hB, List.getD, List.get?]

/-- Rounding zero returns zero: `np.round 0 = 0`. -/
theorem npRound_zero : npRound 0 = 0 := by simpa using npRound_natCast 0

/-- Characterisation of the "right" branch for `1 ≤ o < C`: the call
succeeds and returns exactly the three-band composition `rightOut`. -/
theorem sino_right_eq (data : NdArr) (P R C o : ℕ)
    (hsh : data.shape = [P, R, C]) (ho1 : 1 ≤ o) (ho : o < C) :
    sino_360_to_180 data (o : ℚ) "right" = Except.ok (rightOut data P R C o) := by
  have h1 : ((npRound (o : ℚ) ≥ (C : ℤ))) = False := by
    rw [npRound_natCast]
    simp only [eq_iff_iff, iff_false, ge_iff_le, not_le]
    exact_mod_cast ho
  have h2 : ((npRound (o : ℚ) < 0)) = False := by
    rw [npRound_natCast]
    simp only [eq_iff_iff, iff_false, not_lt]
    exact_mod_cast Nat.zero_le o
  have h3 : (o = 0) = False := by
    simp only [eq_iff_iff, iff_false]
    omega
  have hs : (("right" : String) = "left") = False := by decide
  simp only [sino_360_to_180, sinoRun, Heap.read, List.get?, Option.getD_some,
    hsh, List.length_cons, List.length_nil, h1, h2, h3, hs, if_false, ne_eq,
    npRound_natCast, Int.toNat_natCast, List.getD, Heap.alloc, Heap.write,
    modifyAt, Except.map, rightOut, emptyOut]
  have hA : ¬ (C ≤ o) := by omega
  have hB : ¬ ((o : ℤ) < 0) := not_lt.mpr (Int.natCast_nonneg o)
  norm_num [hA, hB, List.getD, List.get?]

/-- The "right" branch with `overlap = 0` on a 3-D input with at least one
column raises the CuPy broadcast error: `data[:n, :, :-0]` is the empty
slice `data[:n, :, :0]`, which cannot broadcast into the `C`-wide
destination band. -/
theorem sino_right_zero_eq (data : NdArr) (P R C : ℕ)
    (hsh : data.shape = [P, R, C]) (hC : 0 < C) :
    sino_360_to_180 data 0 "right" = Except.error SinoError.broadcastError := by
  have h1 : ((npRound 0 ≥ (C : ℤ))) = False := by
    rw [npRound_zero]
    simp only [eq_iff_iff, iff_false, ge_iff_le, not_le]
    exact_mod_cast hC
  have h2 : ((npRound (0 : ℚ) < 0)) = False := by
    rw [npRound_zero]
    simp
  have h4 : ((0 : ℕ) = C - 0 ∨ (0 : ℕ) = 1) = False := by
    simp only [eq_iff_iff, iff_false]
    omega
  have hs : (("right" : String) = "left") = False := by decide
  simp only [sino_360_to_180, sinoRun, Heap.read, List.get?, Option.getD_some,
    hsh, List.length_cons, List.length_nil, h1, h2, hs, if_false, ne_eq,
    npRound_zero, Int.toNat_zero, List.getD, Heap.alloc, Except.map]
  have hc1 : ¬ (C = 0) := by omega
  have hc2 : ¬ ((0 : ℕ) = C) := by omega
  norm_num [h4, hc1, hc2]

/-- Any rotation string other than `"left"`/`"right"` (with otherwise valid
inputs) raises the rotation error. -/
theorem sino_rot_err (data : NdArr) (P R C o : ℕ)
    (hsh : data.shape = [P, R, C]) (ho : o < C) (r : String)
    (hl : r ≠ "left") (hr : r ≠ "right") :
    sino_360_to_180 data (o : ℚ) r = Except.error SinoError.rotationError := by
  have h1 : ((npRound (o : ℚ) ≥ (C : ℤ))) = False := by
    rw [npRound_natCast]
    simp only [eq_iff_iff, iff_false, ge_iff_le, not_le]
    exact_mod_cast ho
  have h2 : ((npRound (o : ℚ) < 0)) = False := by
    rw [npRound_natCast]
    simp only [eq_iff_iff, iff_false, not_lt]
    exact_mod_cast Nat.zero_le o
  have hl' : (r = "left") = False := by simp [hl]
  have hr' : (r = "right") = False := by simp [hr]
  simp only [sino_360_to_180, sinoRun, Heap.read, List.get?, Option.getD_some,
    hsh, List.length_cons, List.length_nil, h1, h2, hl', hr', if_false, ne_eq,
    npRound_natCast, Int.toNat_natCast, List.getD, Heap.alloc, Except.map]
  have hA : ¬ (C ≤ o) := by omega
  have hB : ¬ ((o : ℤ) < 0) := not_lt.mpr (Int.natCast_nonneg o)
  norm_num [hA, hB]

/-- The array `leftOut` has the documented output shape. -/
theorem leftOut_shape (data : NdArr) (P R C o : ℕ) :
    (leftOut data P R C o).shape = [P / 2, R, 2 * C - o] := rfl

/-- The array `leftOut` keeps the input's element type. -/
theorem leftOut_dtype (data : NdArr) (P R C o : ℕ) :
    (leftOut data P R C o).dtype = data.dtype := rfl

/-- The array `rightOut` has the documented output shape. -/
theorem rightOut_shape (data : NdArr) (P R C o : ℕ) :
    (rightOut data P R C o).shape = [P / 2, R, 2 * C - o] := rfl

/-- The array `rightOut` keeps the input's element type. -/
theorem rightOut_dtype (data : NdArr) (P R C o : ℕ) :
    (rightOut data P R C o).dtype = data.dtype := rfl

/-- Left case, leading `C - o` columns: the second half column-reversed. -/
theorem leftOut_val_low (data : NdArr) (P R C o i y j : ℕ) (hj : j < C - o) :
    (leftOut data P R C o).val [i, y, j] = data.val [P / 2 + i, y, C - 1 - j] := by
  simp only [leftOut, setBand]
  have e3 : ¬ (C - o ≤ j ∧ j < C - o + o) := by omega
  have e2 : (0 ≤ j ∧ j < 0 + (C - o)) := by omega
  rw [if_neg e3, if_pos e2]
  simp

/-- Left case, middle `o` columns (`[C-o, C)`): the linear cross-fade. -/
theorem leftOut_val_mid (data : NdArr) (P R C o i y k : ℕ) (hk : k < o) :
    (leftOut data P R C o).val [i, y, C - o + k] =
      linspace 0 1 o k * data.val [i, y, k]
      + linspace 0 1 o (o - 1 - k) * data.val [P / 2 + i, y, o - 1 - k] := by
  simp only [leftOut, setBand]
  have e3 : (C - o ≤ C - o + k ∧ C - o + k < C - o + o) := by omega
  rw [if_pos e3]
  have e : C - o + k - (C - o) = k := by omega
  rw [e]

/-- Left case, trailing `C - o` columns (`[C, 2C-o)`): the first half, columns
`[o, C)`. -/
theorem leftOut_val_high (data : NdArr) (P R C o i y j : ℕ)
    (hj1 : C ≤ j) (hj2 : j < 2 * C - o) (hoC : o ≤ C) :
    (leftOut data P R C o).val [i, y, j] = data.val [i, y, o + (j - C)] := by
  simp only [leftOut, setBand]
  have e3 : ¬ (C - o ≤ j ∧ j < C - o + o) := by omega
  have e2 : ¬ (0 ≤ j ∧ j < 0 + (C - o)) := by omega
  have e1 : (C ≤ j ∧ j < C + (C - o)) := by omega
  rw [if_neg e3, if_neg e2, if_pos e1]

/-- Right case, leading `C - o` columns: the first half, columns `[0, C-o)`. -/
theorem rightOut_val_low (data : NdArr) (P R C o i y j : ℕ) (hj : j < C - o) :
    (rightOut data P R C o).val [i, y, j] = data.val [i, y, j] := by
  simp only [rightOut, setBand]
  have e3 : ¬ (C - o ≤ j ∧ j < C - o + o) := by omega
  have e2 : ¬ (C ≤ j ∧ j < C + (C - o)) := by omega
  have e1 : (0 ≤ j ∧ j < 0 + (C - o)) := by omega
  rw [if_neg e3, if_neg e2, if_pos e1]
  simp

/-- Right case, middle `o` columns (`[C-o, C)`): the linear cross-fade over the
last `o` columns of each half. -/
theorem rightOut_val_mid (data : NdArr) (P R C o i y k : ℕ) (hk : k < o) :
    (rightOut data P R C o).val [i, y, C - o + k] =
      linspace 1 0 o k * data.val [i, y, C - o + k]
      + linspace 1 0 o (o - 1 - k) * data.val [P / 2 + i, y, C - 1 - k] := by
  simp only [rightOut, setBand]
  have e3 : (C - o ≤ C - o + k ∧ C - o + k < C - o + o) := by omega
  rw [if_pos e3]
  have e : C - o + k - (C - o) = k := by omega
  rw [e]

/-- Right case, trailing `C - o` columns (`[C, 2C-o)`): the second half,
columns `[0, C-o)`, column-reversed. -/
theorem rightOut_val_high (data : NdArr) (P R C o i y j : ℕ)
    (hj1 : C ≤ j) (hj2 : j < 2 * C - o) (hoC : o ≤ C) :
    (rightOut data P R C o).val [i, y, j]
      = data.val [P / 2 + i, y, C - o - 1 - (j - C)] := by
  simp only [rightOut, setBand]
  have e3 : ¬ (C - o ≤ j ∧ j < C - o + o) := by omega
  have e1 : (C ≤ j ∧ j < C + (C - o)) := by omega
  rw [if_neg e3, if_pos e1]

/-- C1: for every 3-D input of shape `(P, R, C)` with rotation `"left"` and
integer overlap `0 ≤ o < C`, `sino_360_to_180` returns an output of shape
`(P/2, R, 2C-o)` satisfying the left-case index algebra: the trailing
`C - o` columns (`out[:, :, -(C-o):]`, i.e. column `C + j`) equal
`data[:n, :, o:]`; the leading `C - o` columns equal the column-reversal of
`data[n:2n, :, o:]`; and the seam band `[C-o, C)` is the cross-fade
`w*data[:n, :, :o] + reverse_cols(w*data[n:2n, :, :o])` with
`w = cp.linspace(0, 1, o)` (the length-`o` linear ramp from 0 to 1). -/
theorem sino360_left_algebra (data : NdArr) (P R C o : ℕ)
    (hsh : data.shape = [P, R, C]) (ho : o < C) :
    ∃ out, sino_360_to_180 data (o : ℚ) "left" = Except.ok out ∧
      out.shape = [P / 2, R, 2 * C - o] ∧
      (∀ i, i < P / 2 → ∀ y, y < R → ∀ j, j < C - o →
        out.val [i, y, C + j] = data.val [i, y, o + j]) ∧
      (∀ i, i < P / 2 → ∀ y, y < R → ∀ j, j < C - o →
        out.val [i, y, j] = data.val [P / 2 + i, y, C - 1 - j]) ∧
      (∀ i, i < P / 2 → ∀ y, y < R → ∀ k, k < o →
        out.val [i, y, C - o + k] =
          linspace 0 1 o k * data.val [i, y, k]
          + linspace 0 1 o (o - 1 - k) * data.val [P / 2 + i, y, o - 1 - k]) := by
  refine ⟨leftOut data P R C o, sino_left_eq data P R C o hsh ho,
    leftOut_shape data P R C o, ?_, ?_, ?_⟩
  · intro i _ y _ j hj
    have h := leftOut_val_high data P R C o i y (C + j) (by omega) (by omega) (by omega)
    have e : C + j - C = j := by omega
    rw [h, e]
  · intro i _ y _ j hj
    exact leftOut_val_low data P R C o i y j hj
  · intro i _ y _ k hk
    exact leftOut_val_mid data P R C o i y k hk

/-- Witness for C1: the golden fixture — `data` of shape `(4, 1, 6)` filled
`0..23`, `overlap = 2`, rotation `"left"` — yields the hand-computed output
of shape `(2, 1, 10)` exactly. -/
theorem sino360_left_algebra_witness :
    (∃ out, sino_360_to_180 fix416 ((2 : ℕ) : ℚ) "left" = Except.ok out ∧
      out.shape = [4 / 2, 1, 2 * 6 - 2] ∧
      (∀ i, i < 4 / 2 → ∀ y, y < 1 → ∀ j, j < 6 - 2 →
        out.val [i, y, 6 + j] = fix416.val [i, y, 2 + j]) ∧
      (∀ i, i < 4 / 2 → ∀ y, y < 1 → ∀ j, j < 6 - 2 →
        out.val [i, y, j] = fix416.val [4 / 2 + i, y, 6 - 1 - j]) ∧
      (∀ i, i < 4 / 2 → ∀ y, y < 1 → ∀ k, k < 2 →
        out.val [i, y, 6 - 2 + k] =
          linspace 0 1 2 k * fix416.val [i, y, k]
          + linspace 0 1 2 (2 - 1 - k) * fix416.val [4 / 2 + i, y, 2 - 1 - k])) ∧
    outRow (getOut (sino_360_to_180 fix416 ((2 : ℕ) : ℚ) "left")) 0 10
      = [17, 16, 15, 14, 13, 1, 2, 3, 4, 5] ∧
    outRow (getOut (sino_360_to_180 fix416 ((2 : ℕ) : ℚ) "left")) 1 10
      = [23, 22, 21, 20, 19, 7, 8, 9, 10, 11] :=
  ⟨sino360_left_algebra fix416 4 1 6 2 rfl (by omega),
    by with_unfolding_all rfl, by with_unfolding_all rfl⟩

/-- C2 (amended): the right-case index algebra holds for every integer
overlap with `1 ≤ o < C`; the claim's range `0 ≤ o < C` fails at `o = 0`,
where the call raises a broadcast error instead of returning an output
(see the counterexample). -/
theorem sino360_right_algebra (data : NdArr) (P R C o : ℕ)
    (hsh : data.shape = [P, R, C]) (ho1 : 1 ≤ o) (ho : o < C) :
    ∃ out, sino_360_to_180 data (o : ℚ) "right" = Except.ok out ∧
      out.shape = [P / 2, R, 2 * C - o] ∧
      (∀ i, i < P / 2 → ∀ y, y < R → ∀ j, j < C - o →
        out.val [i, y, j] = data.val [i, y, j]) ∧
      (∀ i, i < P / 2 → ∀ y, y < R → ∀ j, j < C - o →
        out.val [i, y, C + j] = data.val [P / 2 + i, y, C - o - 1 - j]) ∧
      (∀ i, i < P / 2 → ∀ y, y < R → ∀ k, k < o →
        out.val [i, y, C - o + k] =
          linspace 1 0 o k * data.val [i, y, C - o + k]
          + linspace 1 0 o (o - 1 - k) * data.val [P / 2 + i, y, C - 1 - k]) := by
  refine ⟨rightOut data P R C o, sino_right_eq data P R C o hsh ho1 ho,
    rightOut_shape data P R C o, ?_, ?_, ?_⟩
  · intro i _ y _ j hj
    exact rightOut_val_low data P R C o i y j hj
  · intro i _ y _ j hj
    have h := rightOut_val_high data P R C o i y (C + j) (by omega) (by omega) (by omega)
    have e : C + j - C = j := by omega
    rw [h, e]
  · intro i _ y _ k hk
    exact rightOut_val_mid data P R C o i y k hk

/-- Counterexample to C2 as stated: at `overlap = 0` (inside the claimed
range `0 ≤ overlap < C`) the "right" branch returns no output at all — the
empty `data[:n, :, :-0]` slice fails to broadcast and the call raises. -/
theorem sino360_right_algebra_cex :
    isOk (sino_360_to_180 fix213 ((0 : ℕ) : ℚ) "right") = false ∧
    errOf (sino_360_to_180 fix213 ((0 : ℕ) : ℚ) "right")
      = some SinoError.broadcastError :=
  ⟨by with_unfolding_all rfl, by with_unfolding_all rfl⟩

/-- Witness for C2 at shape `(2, 1, 3)`, values `0..5`, `overlap = 2`:
the output row is `[0, 1, 1*1 + 0*5, 3] = [0, 1, 1, ...]` — concretely
`[0, 1, 4, 3]` after the cross-fade `0*2 + 1*4 = 4` at the seam. -/
theorem sino360_right_algebra_witness :
    (∃ out, sino_360_to_180 fix213 ((2 : ℕ) : ℚ) "right" = Except.ok out ∧
      out.shape = [2 / 2, 1, 2 * 3 - 2] ∧
      (∀ i, i < 2 / 2 → ∀ y, y < 1 → ∀ j, j < 3 - 2 →
        out.val [i, y, j] = fix213.val [i, y, j]) ∧
      (∀ i, i < 2 / 2 → ∀ y, y < 1 → ∀ j, j < 3 - 2 →
        out.val [i, y, 3 + j] = fix213.val [2 / 2 + i, y, 3 - 2 - 1 - j]) ∧
      (∀ i, i < 2 / 2 → ∀ y, y < 1 → ∀ k, k < 2 →
        out.val [i, y, 3 - 2 + k] =
          linspace 1 0 2 k * fix213.val [i, y, 3 - 2 + k]
          + linspace 1 0 2 (2 - 1 - k) * fix213.val [2 / 2 + i, y, 3 - 1 - k])) ∧
    outRow (getOut (sino_360_to_180 fix213 ((2 : ℕ) : ℚ) "right")) 0 4
      = [0, 1, 4, 3] :=
  ⟨sino360_right_algebra fix213 2 1 3 2 rfl (by omega) (by omega),
    by with_unfolding_all rfl⟩

/-- C3 (amended): whenever the call returns an output — rotation `"left"`
with `0 ≤ o < C`, or `"right"` with `1 ≤ o < C` — the output is 3-D of
shape `(P/2, R, 2C-o)` with the input's element type.  The claim's full
range (`"right"` with `o = 0`) fails: there the call raises instead of
returning an output (see the counterexample). -/
theorem sino360_shape_dtype (data : NdArr) (P R C o : ℕ) (r : String)
    (hsh : data.shape = [P, R, C])
    (hr : (r = "left" ∧ o < C) ∨ (r = "right" ∧ 1 ≤ o ∧ o < C)) :
    ∃ out, sino_360_to_180 data (o : ℚ) r = Except.ok out ∧
      out.shape = [P / 2, R, 2 * C - o] ∧ out.dtype = data.dtype := by
  rcases hr with ⟨hre, ho⟩ | ⟨hre, ho1, ho⟩
  · subst hre
    exact ⟨leftOut data P R C o, sino_left_eq data P R C o hsh ho,
      leftOut_shape data P R C o, leftOut_dtype data P R C o⟩
  · subst hre
    exact ⟨rightOut data P R C o, sino_right_eq data P R C o hsh ho1 ho,
      rightOut_shape data P R C o, rightOut_dtype data P R C o⟩

/-- Counterexample to C3 as stated: the valid input of shape `(4, 2, 2)`
with `overlap = 0` and rotation `"right"` produces no output at all. -/
theorem sino360_shape_dtype_cex :
    isOk (sino_360_to_180 fix422 ((0 : ℕ) : ℚ) "right") = false ∧
    errOf (sino_360_to_180 fix422 ((0 : ℕ) : ℚ) "right")
      = some SinoError.broadcastError :=
  ⟨by with_unfolding_all rfl, by with_unfolding_all rfl⟩

/-- Witness for C3 at shape `(4, 2, 2)`, `overlap = 1`, rotation `"right"`:
output shape `(2, 2, 3)` and dtype `"float64"` preserved. -/
theorem sino360_shape_dtype_witness :
    (∃ out, sino_360_to_180 fix422 ((1 : ℕ) : ℚ) "right" = Except.ok out ∧
      out.shape = [4 / 2, 2, 2 * 2 - 1] ∧ out.dtype = fix422.dtype) ∧
    (getOut (sino_360_to_180 fix422 ((1 : ℕ) : ℚ) "right")).shape = [2, 2, 3] ∧
    (getOut (sino_360_to_180 fix422 ((1 : ℕ) : ℚ) "right")).dtype = "float64" :=
  ⟨sino360_shape_dtype fix422 4 2 2 1 "right" rfl (Or.inr ⟨rfl, by omega, by omega⟩),
    by with_unfolding_all rfl, by with_unfolding_all rfl⟩

/-- C4 evaluation: at the failing input — shape `(2, 1, 2)`, values `0..3`,
`overlap = 0` — rotation `"right"` raises the broadcast error instead of
concatenating, while rotation `"left"` concatenates as the claim states:
`out[:, :, :2] = reverse_cols(data[1:2])` and `out[:, :, 2:] = data[0:1]`,
i.e. the single output row is `[3, 2, 0, 1]`. -/
theorem sino360_overlap_zero_eval :
    errOf (sino_360_to_180 fix212 ((0 : ℕ) : ℚ) "right")
      = some SinoError.broadcastError ∧
    isOk (sino_360_to_180 fix212 ((0 : ℕ) : ℚ) "right") = false ∧
    isOk (sino_360_to_180 fix212 ((0 : ℕ) : ℚ) "left") = true ∧
    outRow (getOut (sino_360_to_180 fix212 ((0 : ℕ) : ℚ) "left")) 0 4
      = [3, 2, 0, 1] ∧
    (getOut (sino_360_to_180 fix212 ((0 : ℕ) : ℚ) "left")).shape = [1, 1, 4] :=
  ⟨by with_unfolding_all rfl, by with_unfolding_all rfl, by with_unfolding_all rfl,
    by with_unfolding_all rfl, by with_unfolding_all rfl⟩

/-- C5: for every valid overlap and any rotation string, the output of
`sino_360_to_180` does not depend on any row of index `≥ P - 1` when `P` is
odd: two inputs of the same shape and dtype agreeing on rows `< P - 1`
produce identical results (same error, or outputs equal in shape, dtype and
every in-domain element).  The halves used are rows `[0, n)` and `[n, 2n)`
with `n = P / 2` and `2n = P - 1`. -/
theorem sino360_ignores_last_row (d1 d2 : NdArr) (P R C o : ℕ) (r : String)
    (h1 : d1.shape = [P, R, C]) (h2 : d2.shape = [P, R, C])
    (hdt : d1.dtype = d2.dtype) (hodd : P % 2 = 1) (ho : o < C)
    (hagree : ∀ i y k, i < P - 1 → d1.val [i, y, k] = d2.val [i, y, k]) :
    errOf (sino_360_to_180 d1 (o : ℚ) r) = errOf (sino_360_to_180 d2 (o : ℚ) r) ∧
    ∀ o1 o2, sino_360_to_180 d1 (o : ℚ) r = Except.ok o1 →
      sino_360_to_180 d2 (o : ℚ) r = Except.ok o2 →
      o1.shape = o2.shape ∧ o1.dtype = o2.dtype ∧
      ∀ i, i < P / 2 → ∀ y, y < R → ∀ j, j < 2 * C - o →
        o1.val [i, y, j] = o2.val [i, y, j] := by
  have hrow1 : ∀ i, i < P / 2 → i < P - 1 := by omega
  have hrow2 : ∀ i, i < P / 2 → P / 2 + i < P - 1 := by omega
  by_cases hl : r = "left"
  · subst hl
    rw [sino_left_eq d1 P R C o h1 ho, sino_left_eq d2 P R C o h2 ho]
    refine ⟨rfl, ?_⟩
    intro o1 o2 ho1 ho2
    injection ho1 with e1
    injection ho2 with e2
    subst e1
    subst e2
    refine ⟨by rw [leftOut_shape, leftOut_shape], by
      rw [leftOut_dtype, leftOut_dtype, hdt], ?_⟩
    intro i hi y hy j hj2
    rcases Nat.lt_or_ge j (C - o) with hjl | hjge
    · rw [leftOut_val_low d1 P R C o i y j hjl, leftOut_val_low d2 P R C o i y j hjl,
        hagree (P / 2 + i) y (C - 1 - j) (hrow2 i hi)]
    · rcases Nat.lt_or_ge j C with hjm | hjh
      · have hk : j - (C - o) < o := by omega
        have e : C - o + (j - (C - o)) = j := by omega
        rw [← e, leftOut_val_mid d1 P R C o i y (j - (C - o)) hk,
          leftOut_val_mid d2 P R C o i y (j - (C - o)) hk,
          hagree i y (j - (C - o)) (hrow1 i hi),
          hagree (P / 2 + i) y (o - 1 - (j - (C - o))) (hrow2 i hi)]
      · rw [leftOut_val_high d1 P R C o i y j hjh hj2 (by omega),
          leftOut_val_high d2 P R C o i y j hjh hj2 (by omega),
          hagree i y (o + (j - C)) (hrow1 i hi)]
  · by_cases hr2 : r = "right"
    · subst hr2
      rcases Nat.eq_zero_or_pos o with ho0 | ho1
    
      · subst ho0
        rw [show ((0 : ℕ) : ℚ) = (0 : ℚ) from Nat.cast_zero,
          sino_right_zero_eq d1 P R C h1 (by omega),
          sino_right_zero_eq d2 P R C h2 (by omega)]
        refine ⟨rfl, ?_⟩
        intro o1 o2 ho1 _
        simp at ho1
      · rw [sino_right_eq d1 P R C o h1 ho1 ho, sino_right_eq d2 P R C o h2 ho1 ho]
        refine ⟨rfl, ?_⟩
        intro o1 o2 hq1 hq2
        injection hq1 with e1
        injection hq2 with e2
        subst e1
        subst e2
        refine ⟨by rw [rightOut_shape, rightOut_shape], by
          rw [rightOut_dtype, rightOut_dtype, hdt], ?_⟩
        intro i hi y hy j hj2
        rcases Nat.lt_or_ge j (C - o) with hjl | hjge
        · rw [rightOut_val_low d1 P R C o i y j hjl,
            rightOut_val_low d2 P R C o i y j hjl,
            hagree i y j (hrow1 i hi)]
        · rcases Nat.lt_or_ge j C with hjm | hjh
          · have hk : j - (C - o) < o := by omega
            have e : C - o + (j - (C - o)) = j := by omega
            rw [← e, rightOut_val_mid d1 P R C o i y (j - (C - o)) hk,
              rightOut_val_mid d2 P R C o i y (j - (C - o)) hk,
              hagree i y (C - o + (j - (C - o))) (hrow1 i hi),
              hagree (P / 2 + i) y (C - 1 - (j - (C - o))) (hrow2 i hi)]
          · rw [rightOut_val_high d1 P R C o i y j hjh hj2 (by omega),
              rightOut_val_high d2 P R C o i y j hjh hj2 (by omega),
              hagree (P / 2 + i) y (C - o - 1 - (j - C)) (hrow2 i hi)]
    · rw [sino_rot_err d1 P R C o h1 ho r hl hr2, sino_rot_err d2 P R C o h2 ho r hl hr2]
      refine ⟨rfl, ?_⟩
      intro o1 o2 hq1 _
      simp at hq1

/-- Witness for C5 at shape `(5, 1, 2)`, `overlap = 1`, rotation `"left"`:
replacing the last projection row by the sentinel 99 (`fixOddS`) leaves the
output identical — the concrete rows `[5, 0, 1]` and `[7, 0, 3]` never
contain the sentinel. -/
theorem sino360_ignores_last_row_witness :
    (errOf (sino_360_to_180 fixOdd ((1 : ℕ) : ℚ) "left")
        = errOf (sino_360_to_180 fixOddS ((1 : ℕ) : ℚ) "left") ∧
      ∀ o1 o2, sino_360_to_180 fixOdd ((1 : ℕ) : ℚ) "left" = Except.ok o1 →
        sino_360_to_180 fixOddS ((1 : ℕ) : ℚ) "left" = Except.ok o2 →
        o1.shape = o2.shape ∧ o1.dtype = o2.dtype ∧
        ∀ i, i < 5 / 2 → ∀ y, y < 1 → ∀ j, j < 2 * 2 - 1 →
          o1.val [i, y, j] = o2.val [i, y, j]) ∧
    outRow (getOut (sino_360_to_180 fixOdd ((1 : ℕ) : ℚ) "left")) 0 3
      = [5, 0, 1] ∧
    outRow (getOut (sino_360_to_180 fixOddS ((1 : ℕ) : ℚ) "left")) 0 3
      = [5, 0, 1] ∧
    outRow (getOut (sino_360_to_180 fixOddS ((1 : ℕ) : ℚ) "left")) 1 3
      = [7, 0, 3] :=
  ⟨sino360_ignores_last_row fixOdd fixOddS 5 1 2 1 "left" rfl rfl rfl rfl
      (by omega)
      (fun i y k hi => by
        simp only [fixOdd, fixOddS]
        rw [if_neg (by omega)]),
    by with_unfolding_all rfl, by with_unfolding_all rfl,
    by with_unfolding_all rfl⟩

/-- C6: a call of the stitcher body never writes to the input array: for
any heap, reading the input reference after the run (whether it returned
or raised) yields the array that was there before.  All writes target the
freshly allocated output buffer only. -/
theorem sino360_no_input_mutation (h : Heap) (dataRef : ℕ) (q : ℚ)
    (r : String) (d : NdArr) (hread : h.read dataRef = some d) :
    (sinoRun h dataRef q r).1.read dataRef = some d := by
  have hlt : dataRef < h.cells.length := by
    by_contra hge
    rw [Heap.read, List.get?_eq_none.mpr (by omega)] at hread
    exact Option.noConfusion hread
  have hkey3 : ∀ (a : NdArr) (f1 f2 f3 : NdArr → NdArr),
      ((((h.alloc a).1.write (h.alloc a).2 f1).write (h.alloc a).2 f2).write
        (h.alloc a).2 f3).read dataRef = some d := by
    intro a f1 f2 f3
    rw [Heap.read_alloc_write3 h a f1 f2 f3 dataRef hlt]
    exact hread
  have hkey1 : ∀ a : NdArr, (h.alloc a).1.read dataRef = some d := by
    intro a
    rw [Heap.read_alloc_lt h a dataRef hlt]
    exact hread
  unfold sinoRun
  dsimp only
  repeat' split
  all_goals first
    | exact hread
    | exact hkey3 _ _ _ _
    | exact hkey1 _

/-- Witness for C6: running the stitcher on a heap holding the golden
fixture at reference 0 leaves that cell bit-identical. -/
theorem sino360_no_input_mutation_witness :
    (sinoRun (Heap.mk [fix416]) 0 ((2 : ℕ) : ℚ) "left").1.read 0
      = some fix416 :=
  sino360_no_input_mutation (Heap.mk [fix416]) 0 ((2 : ℕ) : ℚ) "left" fix416 rfl

/-- C7 (amended): the dimensionality and overlap-range validation failures
are raised before the output allocation (empty event trace), but the
unrecognised-rotation failure is raised only after the output buffer has
been allocated — though before any write to it (trace `[alloc]` with no
write events); in every failure case an error is raised and no output is
returned. -/
theorem sino360_validation_order (data : NdArr) (q : ℚ) (r : String) :
    (data.shape.length ≠ 3 →
      sinoEvents data q r = [] ∧
      errOf (sino_360_to_180 data q r) = some SinoError.dimError) ∧
    (∀ P R C : ℕ, data.shape = [P, R, C] →
      (npRound q ≥ (C : ℤ) ∨ npRound q < 0) →
      sinoEvents data q r = [] ∧
      isRangeErr (sino_360_to_180 data q r) = true) ∧
    (∀ P R C : ℕ, data.shape = [P, R, C] →
      ¬ npRound q ≥ (C : ℤ) → ¬ npRound q < 0 →
      r ≠ "left" → r ≠ "right" →
      sinoEvents data q r = [Event.alloc] ∧
      errOf (sino_360_to_180 data q r) = some SinoError.rotationError) := by
  refine ⟨?_, ?_, ?_⟩
  · intro h3
    have h3' : (data.shape.length = 3) = False := by simp [h3]
    constructor
    · simp [sinoEvents, sinoRun, Heap.read, h3']
    · simp [sino_360_to_180, sinoRun, Heap.read, h3', errOf, Except.map]
  · intro P R C hsh hq
    by_cases hge : npRound q ≥ (C : ℤ)
    · constructor
      · simp [sinoEvents, sinoRun, Heap.read, hsh, eq_true hge, List.getD]
      · simp [sino_360_to_180, sinoRun, Heap.read, hsh, eq_true hge,
          isRangeErr, Except.map, List.getD]
    · have hneg : npRound q < 0 := hq.resolve_left hge
      constructor
      · simp [sinoEvents, sinoRun, Heap.read, hsh, eq_false hge, eq_true hneg,
          List.getD]
      · simp [sino_360_to_180, sinoRun, Heap.read, hsh, eq_false hge,
          eq_true hneg, isRangeErr, Except.map, List.getD]
  · intro P R C hsh hge hneg hl hr
    have hl' : (r = "left") = False := by simp [hl]
    have hr' : (r = "right") = False := by simp [hr]
    constructor
    · simp [sinoEvents, sinoRun, Heap.read, hsh, eq_false hge, eq_false hneg,
        hl', hr', List.getD]
    · simp [sino_360_to_180, sinoRun, Heap.read, hsh, eq_false hge,
        eq_false hneg, hl', hr', errOf, Except.map, List.getD, Heap.alloc]

/-- Counterexample to C7 as stated: for the invalid rotation `"up"` (with
otherwise valid input), the output buffer allocation does happen before the
failure is raised — the event trace is `[alloc]`, not `[]`. -/
theorem sino360_validation_order_cex :
    sinoEvents fix212 ((0 : ℕ) : ℚ) "up" = [Event.alloc] ∧
    errOf (sino_360_to_180 fix212 ((0 : ℕ) : ℚ) "up")
      = some SinoError.rotationError :=
  ⟨by with_unfolding_all rfl, by with_unfolding_all rfl⟩

/-- Witness for C7: the rotation failure at `"up"` (allocation, then error,
no writes) and an overlap-range failure at `overlap = 5 ≥ C = 1` (error
before any allocation). -/
theorem sino360_validation_order_witness :
    (sinoEvents fix212 ((0 : ℕ) : ℚ) "up" = [Event.alloc] ∧
      errOf (sino_360_to_180 fix212 ((0 : ℕ) : ℚ) "up")
        = some SinoError.rotationError) ∧
    (sinoEvents fix211 ((5 : ℕ) : ℚ) "left" = [] ∧
      isRangeErr (sino_360_to_180 fix211 ((5 : ℕ) : ℚ) "left") = true) :=
  ⟨(sino360_validation_order fix212 ((0 : ℕ) : ℚ) "up").2.2 2 1 2 rfl
      (by rw [npRound_natCast]; decide) (by rw [npRound_natCast]; decide)
      (by decide) (by decide),
    (sino360_validation_order fix211 ((5 : ℕ) : ℚ) "left").2.1 2 1 1 rfl
      (Or.inl (by rw [npRound_natCast]; decide))⟩

/-- C8 evaluation: on shape `(P, R, C) = (2, 1, 1)` the maximum allowed
overlap `C - 1 = 0` succeeds for `"left"` but raises the broadcast error
for `"right"` (the claim says it succeeds for every input); `overlap = C`
and `overlap = -1` fail with the two range errors; on shape `(2, 1, 3)`
the maximum overlap 2 succeeds for both rotations and `overlap = 3` /
`overlap = -1` fail with the range errors. -/
theorem sino360_overlap_boundary_eval :
    errOf (sino_360_to_180 fix211 ((0 : ℕ) : ℚ) "right")
      = some SinoError.broadcastError ∧
    isOk (sino_360_to_180 fix211 ((0 : ℕ) : ℚ) "left") = true ∧
    errOf (sino_360_to_180 fix211 ((1 : ℕ) : ℚ) "left")
      = some SinoError.overlapTooLarge ∧
    errOf (sino_360_to_180 fix211 (-1 : ℚ) "left")
      = some SinoError.overlapNegative ∧
    isOk (sino_360_to_180 fix213 ((2 : ℕ) : ℚ) "right") = true ∧
    isOk (sino_360_to_180 fix213 ((2 : ℕ) : ℚ) "left") = true ∧
    errOf (sino_360_to_180 fix213 ((3 : ℕ) : ℚ) "right")
      = some SinoError.overlapTooLarge ∧
    errOf (sino_360_to_180 fix213 (-1 : ℚ) "right")
      = some SinoError.overlapNegative :=
  ⟨by with_unfolding_all rfl, by with_unfolding_all rfl,
    by with_unfolding_all rfl, by with_unfolding_all rfl,
    by with_unfolding_all rfl, by with_unfolding_all rfl,
    by with_unfolding_all rfl, by with_unfolding_all rfl⟩

/-- C9: with `overlap = 1` both rotations succeed (no division by zero:
`cp.linspace` with one sample returns its start value).  The seam column
`C - 1` is identically 0 for `"left"` (weight `[0.0]`) and equals
`data[:n, :, C-1] + data[n:2n, :, C-1]` for `"right"` (weight `[1.0]`;
the column-reversal of a single column is itself). -/
theorem sino360_overlap_one (data : NdArr) (P R C : ℕ)
    (hsh : data.shape = [P, R, C]) (hC : 1 < C) :
    (∃ out, sino_360_to_180 data ((1 : ℕ) : ℚ) "left" = Except.ok out ∧
      ∀ i, i < P / 2 → ∀ y, y < R → out.val [i, y, C - 1] = 0) ∧
    (∃ out, sino_360_to_180 data ((1 : ℕ) : ℚ) "right" = Except.ok out ∧
      ∀ i, i < P / 2 → ∀ y, y < R →
        out.val [i, y, C - 1] = data.val [i, y, C - 1]
          + data.val [P / 2 + i, y, C - 1]) := by
  constructor
  · refine ⟨leftOut data P R C 1, sino_left_eq data P R C 1 hsh (by omega), ?_⟩
    intro i hi y hy
    have h := leftOut_val_mid data P R C 1 i y 0 (by omega)
    simpa [linspace] using h
  · refine ⟨rightOut data P R C 1,
      sino_right_eq data P R C 1 hsh (by omega) (by omega), ?_⟩
    intro i hi y hy
    have h := rightOut_val_mid data P R C 1 i y 0 (by omega)
    simpa [linspace] using h

/-- Witness for C9 at shape `(2, 1, 3)`, values `0..5`: the left seam
column is 0 and the right seam column is `2 + 5 = 7`. -/
theorem sino360_overlap_one_witness :
    ((∃ out, sino_360_to_180 fix213 ((1 : ℕ) : ℚ) "left" = Except.ok out ∧
      ∀ i, i < 2 / 2 → ∀ y, y < 1 → out.val [i, y, 3 - 1] = 0) ∧
     (∃ out, sino_360_to_180 fix213 ((1 : ℕ) : ℚ) "right" = Except.ok out ∧
      ∀ i, i < 2 / 2 → ∀ y, y < 1 →
        out.val [i, y, 3 - 1] = fix213.val [i, y, 3 - 1]
          + fix213.val [2 / 2 + i, y, 3 - 1])) ∧
    (getOut (sino_360_to_180 fix213 ((1 : ℕ) : ℚ) "left")).val [0, 0, 2] = 0 ∧
    (getOut (sino_360_to_180 fix213 ((1 : ℕ) : ℚ) "right")).val [0, 0, 2] = 7 :=
  ⟨sino360_overlap_one fix213 2 1 3 rfl (by omega),
    by with_unfolding_all rfl, by with_unfolding_all rfl⟩

/-- C10: for each of `FBP`, `SIRT` and `CGLS`, a call with `center = None`
and `objsize = None` equals the call with `center = data.shape[2] // 2` and
`objsize = data.shape[2]` explicitly; and every call passes
`CenterRotOffset = data.shape[2]/2 - center - 0.5`, the negated angle
vector `-angles`, and `ObjSize = objsize` to the external toolkit. -/
theorem recon_args_translation (s0 s1 s2 : ℕ) (angles : List ℚ) (c : ℚ)
    (os gpu it : ℕ) (nn : Bool) :
    FBP s0 s1 s2 angles none none gpu
      = FBP s0 s1 s2 angles (some ((s2 / 2 : ℕ) : ℚ)) (some s2) gpu ∧
    SIRT s0 s1 s2 angles none none it nn gpu
      = SIRT s0 s1 s2 angles (some ((s2 / 2 : ℕ) : ℚ)) (some s2) it nn gpu ∧
    CGLS s0 s1 s2 angles none none it nn gpu
      = CGLS s0 s1 s2 angles (some ((s2 / 2 : ℕ) : ℚ)) (some s2) it nn gpu ∧
    (FBP s0 s1 s2 angles (some c) (some os) gpu).CenterRotOffset
      = (s2 : ℚ) / 2 - c - 1/2 ∧
    (FBP s0 s1 s2 angles (some c) (some os) gpu).AnglesVec
      = angles.map (fun a => -a) ∧
    (FBP s0 s1 s2 angles (some c) (some os) gpu).ObjSize = os ∧
    (SIRT s0 s1 s2 angles (some c) (some os) it nn gpu).1.CenterRotOffset
      = (s2 : ℚ) / 2 - c - 1/2 ∧
    (SIRT s0 s1 s2 angles (some c) (some os) it nn gpu).1.AnglesVec
      = angles.map (fun a => -a) ∧
    (SIRT s0 s1 s2 angles (some c) (some os) it nn gpu).1.ObjSize = os ∧
    (CGLS s0 s1 s2 angles (some c) (some os) it nn gpu).1.CenterRotOffset
      = (s2 : ℚ) / 2 - c - 1/2 ∧
    (CGLS s0 s1 s2 angles (some c) (some os) it nn gpu).1.AnglesVec
      = angles.map (fun a => -a) ∧
    (CGLS s0 s1 s2 angles (some c) (some os) it nn gpu).1.ObjSize = os :=
  ⟨rfl, rfl, rfl, rfl, rfl, rfl, rfl, rfl, rfl, rfl, rfl, rfl⟩
